import Mathlib

/-!
Verification of the `intersection` Discord bot (DRQL custom-mention query
system) against its specification.  The definitions below are a shallow
embedding of `src/main.rs`: guild data, the recursive AST evaluator
`walk_and_reduce_ast`, the unionizer (qualifier / redundancy-removal /
outlier computation), the reply rendering and the message dispatch logic.
User and role identifiers are modelled as `Nat` (they are opaque 64-bit
values compared only for equality; no arithmetic is performed on them).
`HashSet<UserId>` is modelled as `Finset Nat`; the `HashMap` built by the
unionizer is modelled as an association list whose keys are distinct by
construction, with a deterministic iteration order standing in for the
arbitrary (but fixed during one run) HashMap order.
-/

namespace DRQL

/-- `str::to_lowercase` (`String.toLower`): lower-case every character.
Written over the character list so that it evaluates by kernel
reduction. -/
def strLower (s : String) : String := String.mk (s.data.map Char.toLower)

/-- Whether the first list is a prefix of the second (`str::starts_with`),
by structural recursion. -/
def startsWithChars : List Char → List Char → Bool
  | [], _ => true
  | _ :: _, [] => false
  | a :: as, b :: bs => a == b && startsWithChars as bs

/-- `content.starts_with(pfx)`. -/
def strStartsWith (s p : String) : Bool := startsWithChars p.data s.data

/-- Helper for `strToNat?`: accumulate decimal digits, failing on any
non-digit. -/
def strToNatAux : List Char → Nat → Option Nat
  | [], acc => some acc
  | c :: cs, acc => if c.isDigit then strToNatAux cs (acc * 10 + (c.toNat - 48)) else none

/-- `str::parse::<u64>()` on a DRQL integer token: the numeric value of a
non-empty all-digit string, `none` otherwise (same outcomes as
`String.toNat?`). -/
def strToNat? (s : String) : Option Nat :=
  if s.data.isEmpty then none else strToNatAux s.data 0

/-- A guild member: `member.user.id`, `member.user.tag()` and the member's
role-id list (`member.roles` in serenity). -/
structure Member where
  userId : Nat
  tag : String
  roleIds : List Nat
deriving Repr, DecidableEq

/-- A guild role: id, name and the `mentionable` flag. -/
structure Role where
  id : Nat
  name : String
  mentionable : Bool
deriving Repr, DecidableEq

/-- Read-only view of a guild (serenity `Guild` as used by the code):
its id, members, roles, and presence information.  `online u` models
`presences.get(u).is_some_and(|p| p.status != OnlineStatus::Offline)`. -/
structure Guild where
  id : Nat
  members : List Member
  roles : List Role
  online : Nat → Bool

/-- The permission bits of the invoking member that the code consults. -/
structure Invoker where
  mentionEveryone : Bool
  manageGuild : Bool
deriving Repr, DecidableEq

/-- `enum RoleType { Everyone, Here, Id(RoleId) }` from `main.rs`. -/
inductive RoleType where
  | Everyone : RoleType
  | Here : RoleType
  | Id : Nat → RoleType
deriving Repr, DecidableEq

/-- The `Display` impl for `RoleType` in `main.rs`.  Note the source writes
`<@{}>` (a *user* mention) for `RoleType::Id(id)`, not `<@&{}>`. -/
def renderRoleType : RoleType → String
  | RoleType.Everyone => "@everyone"
  | RoleType.Here => "@here"
  | RoleType.Id id => "<@" ++ toString id ++ ">"

/-- The DRQL AST (`drql::ast::Expr`), with the variants exactly as consumed
by `walk_and_reduce_ast`.  `UnknownID` carries a `String` as in the source
(it is compared to `guild.id.to_string()` and then `parse::<u64>()`d). -/
inductive Expr where
  | Union : Expr → Expr → Expr
  | Intersection : Expr → Expr → Expr
  | Difference : Expr → Expr → Expr
  | UserID : Nat → Expr
  | RoleID : Nat → Expr
  | UnknownID : String → Expr
  | StringLiteral : String → Expr
deriving Repr, DecidableEq

/-- The distinct `bail!` / error sites of the evaluator, one constructor per
site, carrying the data interpolated into the message. -/
inductive EvalError where
  | bothMemberAndRoleId : String → EvalError
  | unmentionable : String → EvalError
  | unresolvedIdOrMember : String → EvalError
  | intParse : String → EvalError
  | permissionDenied : String → EvalError
  | multipleMembers : String → EvalError
  | multipleRoles : String → EvalError
  | memberAndRoleShareName : String → EvalError
  | unresolvedName : String → EvalError
  | unresolvedRole : EvalError
deriving Repr, DecidableEq

/-- The user-visible message of each evaluator error (the `bail!` format
strings of the source; `intParse` stands for the propagated
`ParseIntError`). -/
def errMessage : EvalError → String
  | EvalError.bothMemberAndRoleId s =>
      "Somehow there was both a member and a role with the ID " ++ s ++ "??"
  | EvalError.unmentionable name =>
      "The role " ++ name ++ " is not mentionable and you do not have the \"Mention everyone, here, and All Roles\" permission."
  | EvalError.unresolvedIdOrMember s => "Unable to resolve role or member ID: " ++ s
  | EvalError.intParse s => "invalid digit found in string: " ++ s
  | EvalError.permissionDenied s =>
      "You do not have the \"Mention everyone, here, and All Roles\" permission required to use the role " ++ s ++ "."
  | EvalError.multipleMembers s =>
      "Multiple members matched your query for " ++ s ++ ". Use their ID instead."
  | EvalError.multipleRoles s =>
      "Multiple roles matched your query for " ++ s ++ ". Use their ID instead."
  | EvalError.memberAndRoleShareName s =>
      "Found a member and role with the same name in your query for " ++ s ++ ". Use their ID instead."
  | EvalError.unresolvedName s =>
      "Unable to resolve role or member **username** (use a tag like \"User#1234\" and no nickname!): " ++ s
  | EvalError.unresolvedRole => "Unable to resolve role"

/-- `Guild::get_everyone`: the ids of all members. -/
def getEveryone (g : Guild) : Finset Nat :=
  (g.members.map (fun m => m.userId)).toFinset

/-- `Guild::get_here`: members whose presence status is not Offline. -/
def getHere (g : Guild) : Finset Nat :=
  (getEveryone g).filter (fun id => g.online id = true)

/-- `Role::members(&guild)` for the role with id `rid`: members whose role
list contains `rid`. -/
def roleIdMembers (g : Guild) (rid : Nat) : Finset Nat :=
  ((g.members.filter (fun m => m.roleIds.contains rid)).map (fun m => m.userId)).toFinset

/-- The body of the `StringLiteral` branch for the reserved names
`everyone` / `here`: gate on the `mention_everyone` permission, then
return `get_everyone()` or `get_here()`.  (Only ever applied to those two
strings; the source's unreachable `panic!` arm corresponds to the final
`else`.) -/
def evalEveryoneHere (g : Guild) (inv : Invoker) (s : String) : Except EvalError (Finset Nat) :=
  if !inv.mentionEveryone then Except.error (EvalError.permissionDenied s)
  else if s = "everyone" then Except.ok (getEveryone g)
  else Except.ok (getHere g)

/-- The `Expr::RoleID` branch of `walk_and_reduce_ast`: if the id equals
the guild id (compared via `to_string()` as in the source) recurse into
`StringLiteral("everyone")` — inlined here as `evalEveryoneHere`, which is
exactly the reserved branch that call reaches — otherwise look up the role
and expand its members. -/
def evalRoleId (g : Guild) (inv : Invoker) (rid : Nat) : Except EvalError (Finset Nat) :=
  if toString rid = toString g.id then evalEveryoneHere g inv "everyone"
  else
    match g.roles.find? (fun r => r.id == rid) with
    | none => Except.error EvalError.unresolvedRole
    | some role => Except.ok (roleIdMembers g role.id)

/-- The `Expr::StringLiteral` branch of `walk_and_reduce_ast`.  Note the
faithful duplication of the source's bug at `main.rs:343`: the second
guard re-checks `possible_members.len() > 1` (not `possible_roles`), so
the `multipleRoles` error is unreachable.  The `(Some(member), None)`
arm recurses into `UserID(member.user.id)`, which evaluates to the
singleton, inlined here; the `(None, Some(role))` arm recurses into
`RoleID(role.id)`. -/
def evalLit (g : Guild) (inv : Invoker) (s : String) : Except EvalError (Finset Nat) :=
  if s = "everyone" ∨ s = "here" then evalEveryoneHere g inv s
  else
    let pm := g.members.filter (fun m => strLower m.tag == strLower s)
    let pr := g.roles.filter (fun r => strLower r.name == strLower s)
    if pm.length > 1 then Except.error (EvalError.multipleMembers s)
    else if pm.length > 1 then Except.error (EvalError.multipleRoles s)
    else
      match pm.head?, pr.head? with
      | some _, some _ => Except.error (EvalError.memberAndRoleShareName s)
      | some m, none => Except.ok {m.userId}
      | none, some r =>
          if !(r.mentionable || inv.mentionEveryone) then
            Except.error (EvalError.unmentionable r.name)
          else evalRoleId g inv r.id
      | none, none => Except.error (EvalError.unresolvedName s)

/-- The `Expr::UnknownID` branch of `walk_and_reduce_ast`: guild id means
`everyone` (inlined reserved branch), otherwise parse the digits and try a
member lookup and a role lookup. -/
def evalUnknownId (g : Guild) (inv : Invoker) (s : String) : Except EvalError (Finset Nat) :=
  if s = toString g.id then evalEveryoneHere g inv "everyone"
  else
    match strToNat? s with
    | none => Except.error (EvalError.intParse s)
    | some n =>
      match g.members.find? (fun m => m.userId == n), g.roles.find? (fun r => r.id == n) with
      | some _, some _ => Except.error (EvalError.bothMemberAndRoleId s)
      | some m, none => Except.ok {m.userId}
      | none, some role =>
          if !(role.mentionable || inv.mentionEveryone) then
            Except.error (EvalError.unmentionable role.name)
          else evalRoleId g inv role.id
      | none, none => Except.error (EvalError.unresolvedIdOrMember s)

/-- `walk_and_reduce_ast`: evaluate an AST to the set of user ids to
mention, or the first error (the source awaits the left operand before the
right one and short-circuits with `?`). -/
def eval (g : Guild) (inv : Invoker) : Expr → Except EvalError (Finset Nat)
  | Expr.Difference l r =>
      match eval g inv l with
      | Except.error e => Except.error e
      | Except.ok a =>
        match eval g inv r with
        | Except.error e => Except.error e
        | Except.ok b => Except.ok (a \ b)
  | Expr.Intersection l r =>
      match eval g inv l with
      | Except.error e => Except.error e
      | Except.ok a =>
        match eval g inv r with
        | Except.error e => Except.error e
        | Except.ok b => Except.ok (a ∩ b)
  | Expr.Union l r =>
      match eval g inv l with
      | Except.error e => Except.error e
      | Except.ok a =>
        match eval g inv r with
        | Except.error e => Except.error e
        | Except.ok b => Except.ok (a ∪ b)
  | Expr.UserID id => Except.ok {id}
  | Expr.RoleID id => evalRoleId g inv id
  | Expr.UnknownID s => evalUnknownId g inv s
  | Expr.StringLiteral s => evalLit g inv s

/-- `reduce_ast_chunks`: left-fold a list of chunk ASTs into one `Union`
tree; `none` when there are no chunks. -/
def reduceAstChunks : List Expr → Option Expr
  | [] => none
  | x :: xs => some (xs.foldl (fun acc c => Expr.Union acc c) x)

/-- The distinct role ids that occur on at least one member and resolve in
the guild's role table — exactly the `RoleType::Id` keys the source's loop
over `member.roles(ctx)` inserts into `roles_and_their_members`. -/
def roleIdKeys (g : Guild) : List Nat :=
  ((g.members.map (fun m => (g.roles.filter (fun r => m.roleIds.contains r.id)).map (fun r => r.id))).flatten).dedup

/-- `roles_and_their_members`: the `Everyone` and `Here` entries plus one
entry per role held by some member, each mapped to its member set.  Keys
are pairwise distinct by construction (the HashMap keyed by `RoleType`). -/
def rolesAndMembersL (g : Guild) : List (RoleType × Finset Nat) :=
  (RoleType.Everyone, getEveryone g) ::
    (RoleType.Here, getHere g) ::
      (roleIdKeys g).map (fun rid => (RoleType.Id rid, roleIdMembers g rid))

/-- `qualifiers`: the entries of `roles_and_their_members` whose member set
is a subset of the target `T`. -/
def qualifiersL (g : Guild) (T : Finset Nat) : List (RoleType × Finset Nat) :=
  (rolesAndMembersL g).filter (fun p => decide (p.2 ⊆ T))

/-- `new_qualifiers`: drop a qualifier when any *other* qualifier's set is
a (non-strict, `is_superset`) superset of its set — the source's
redundancy-removal filter verbatim. -/
def newQualifiersL (g : Guild) (T : Finset Nat) : List (RoleType × Finset Nat) :=
  (qualifiersL g T).filter
    (fun p => !((qualifiersL g T).any (fun q => decide (q.1 ≠ p.1) && decide (p.2 ⊆ q.2))))

/-- Union of the member sets of an association list (the
`.into_values().flatten()` of the source). -/
def unionOfValues (l : List (RoleType × Finset Nat)) : Finset Nat :=
  l.foldr (fun p acc => p.2 ∪ acc) ∅

/-- `included_members`: the union of **all** qualifiers' member sets (the
source folds `qualifiers`, not `new_qualifiers`). -/
def includedMembersL (g : Guild) (T : Finset Nat) : Finset Nat :=
  unionOfValues (qualifiersL g T)

/-- `outliers`: the target members covered by no qualifier. -/
def outliersL (g : Guild) (T : Finset Nat) : Finset Nat :=
  T \ includedMembersL g T

/-- The elements of a `Finset Nat` in ascending order (insertion sort,
which evaluates by kernel reduction, lifted through the multiset
quotient). -/
def finsetAscList (s : Finset Nat) : List Nat :=
  Quot.liftOn s.val (fun l => List.insertionSort (fun a b => a ≤ b) l)
    (fun a b h =>
      List.eq_of_perm_of_sorted
        ((List.perm_insertionSort _ a).trans (h.trans (List.perm_insertionSort _ b).symm))
        (List.sorted_insertionSort _ a) (List.sorted_insertionSort _ b))

/-- The content of the final mention reply:
`format!("{} {}", new_qualifiers joined by spaces, outliers joined by
spaces)`.  The outliers (a `HashSet` iterated in arbitrary order in the
source) are listed here in ascending id order as the stand-in
deterministic order. -/
def mentionMessage (g : Guild) (T : Finset Nat) : String :=
  String.intercalate " " ((newQualifiersL g T).map (fun p => renderRoleType p.1))
    ++ " " ++
      String.intercalate " "
        ((finsetAscList (outliersL g T)).map (fun id => "<@" ++ toString id ++ ">"))

/-- A reply sent by the bot.  Every reply in the source is a plain
`msg.reply(ctx, string)`; the `mention` constructor tags the single reply
site (`main.rs:444`) whose content is the computed mention list, so that
"mention output" is distinguishable from informational replies. -/
inductive Reply where
  | info : String → Reply
  | mention : String → Reply
deriving Repr, DecidableEq

instance {ε α : Type} [DecidableEq ε] [DecidableEq α] : DecidableEq (Except ε α) := fun a b =>
  match a, b with
  | Except.error e, Except.error f =>
    if h : e = f then Decidable.isTrue (by rw [h]) else Decidable.isFalse (by simp [h])
  | Except.error _, Except.ok _ => Decidable.isFalse (by simp)
  | Except.ok _, Except.error _ => Decidable.isFalse (by simp)
  | Except.ok x, Except.ok y =>
    if h : x = y then Decidable.isTrue (by rw [h]) else Decidable.isFalse (by simp [h])

/-- The `run` branch of `handle_command`.  `scanned` is the result of
scanning the argument text and parsing every chunk
(`scan(..).map(parse_drql).collect::<Result<Vec<_>,_>>()`); the scanner
and parser live in the `drql` module outside `main.rs`, so the branch is
parameterized by their combined outcome.  A scan/parse error propagates
with `?` (modelled as `Except.error`); zero chunks draw the "no DRQL
queries" reply; an evaluation error is reported as a reply; otherwise the
single mention reply is sent — unconditionally, with no audience-size
confirmation gate anywhere on the path. -/
def runReplies (g : Guild) (inv : Invoker) (scanned : Except String (List Expr)) :
    Except String (List Reply) :=
  match scanned with
  | Except.error e => Except.error e
  | Except.ok chunks =>
    match reduceAstChunks chunks with
    | none =>
        Except.ok [Reply.info "Your message does not contain any DRQL queries to attempt to resolve"]
    | some ast =>
      match eval g inv ast with
      | Except.error e =>
          Except.ok [Reply.info ("An error occurred while calculating the result: " ++ errMessage e)]
      | Except.ok T => Except.ok [Reply.mention (mentionMessage g T)]

/-- The reply text of the `config` branch of `handle_command`.  Every path
through that branch sends exactly one informational reply; this function
computes its text (the database update performed by `config prefix set`
is a side effect with no further observable output). -/
def configMessage (pfx : String) (inv : Invoker) (args : List String) : String :=
  if !inv.manageGuild then "You need the Manage Server permission to run this command!"
  else
    match args with
    | [] => "You need to specify a subcommand. Try `" ++ pfx ++ "config help`"
    | sub :: rest =>
      if strLower sub = "help" then "Available subcommands: `prefix`, `help`"
      else if strLower sub = "prefix" then
        match rest with
        | [] => "Specify an action verb, `get` or `set`."
        | act :: rest2 =>
          if strLower act = "set" then
            if rest2 = [] then
              "You need to specify a prefix. Try `" ++ pfx ++ "config prefix set <prefix>`"
            else
              "This server\x27s prefix has been set to `" ++ String.intercalate " " rest2 ++ "`."
          else if strLower act = "get" then
            "This server\x27s prefix is set to `" ++ pfx ++ "`."
          else
            "Unknown action verb. Try `" ++ pfx ++ "config prefix get` or `" ++ pfx ++ "config prefix set`."
      else "Unknown subcommand. Try `" ++ pfx ++ "config help`"

/-- `handle_command`: dispatch on the command word. -/
def handleCommand (pfx : String) (g : Guild) (inv : Invoker) (cmd : String)
    (args : List String) (scanned : Except String (List Expr)) : Except String (List Reply) :=
  if cmd = "config" then Except.ok [Reply.info (configMessage pfx inv args)]
  else if cmd = "run" then runReplies g inv scanned
  else Except.ok [Reply.info "Unknown command."]

/-- Helper for `splitWhitespace`: chunk the characters at whitespace,
accumulating the current (reversed) word. -/
def splitWSAux : List Char → List Char → List String
  | [], [] => []
  | [], acc => [String.mk acc.reverse]
  | c :: cs, acc =>
    if c.isWhitespace then
      match acc with
      | [] => splitWSAux cs []
      | _ => String.mk acc.reverse :: splitWSAux cs []
    else splitWSAux cs (c :: acc)

/-- Rust's `split_whitespace`: the whitespace-separated words, with no
empty pieces. -/
def splitWhitespace (s : String) : List String := splitWSAux s.data []

/-- `handle_message` glued to the `EventHandler::message` error reporting:
bots are ignored; non-guild messages get one informational reply; a
message not starting with the configured guild prefix `pfx` is ignored; an
empty remainder is ignored; otherwise the first word is the command and
the rest the arguments.  `scanParse` is the external scanner+parser
applied to the re-joined argument text; a propagated error becomes the
top-level error reply. -/
def handleMessage (authorBot : Bool) (inGuild : Bool) (pfx : String) (content : String)
    (g : Guild) (inv : Invoker) (scanParse : String → Except String (List Expr)) : List Reply :=
  if authorBot then []
  else if !inGuild then [Reply.info "This bot only works in servers."]
  else if !(strStartsWith content pfx) then []
  else
    match splitWhitespace (content.drop pfx.length) with
    | [] => []
    | cmd :: args =>
      match handleCommand pfx g inv cmd args (scanParse (String.intercalate " " args)) with
      | Except.ok rs => rs
      | Except.error e => [Reply.info ("An error occurred while processing your command: " ++ e)]

/-- The user ids of the `UserID` leaves of an AST. -/
def userIdLeaves : Expr → Finset Nat
  | Expr.Union a b => userIdLeaves a ∪ userIdLeaves b
  | Expr.Intersection a b => userIdLeaves a ∪ userIdLeaves b
  | Expr.Difference a b => userIdLeaves a ∪ userIdLeaves b
  | Expr.UserID id => {id}
  | Expr.RoleID _ => ∅
  | Expr.UnknownID _ => ∅
  | Expr.StringLiteral _ => ∅

/-- The member set a `RoleType` key denotes (each key of
`roles_and_their_members` is mapped to exactly this set). -/
def keyFn (g : Guild) : RoleType → Finset Nat
  | RoleType.Everyone => getEveryone g
  | RoleType.Here => getHere g
  | RoleType.Id rid => roleIdMembers g rid

/-! ### Concrete guilds used by counterexamples and witnesses -/

/-- A guild with no members and no roles. -/
def gEmpty : Guild := ⟨99, [], [], fun _ => false⟩

/-- An invoker holding every permission the code consults. -/
def invAll : Invoker := ⟨true, true⟩

/-- Two members; member 1 holds two distinct roles (ids 10 and 20) whose
member sets are therefore equal (`{1}`); everybody offline. -/
def gC1 : Guild :=
  ⟨100, [⟨1, "a#1", [10, 20]⟩, ⟨2, "b#2", []⟩],
    [⟨10, "r10", true⟩, ⟨20, "r20", true⟩], fun _ => false⟩

/-- The target set `{1}` used against `gC1`. -/
def TC1 : Finset Nat := {1}

/-- A guild with two distinct roles both named `dup` and no members. -/
def gC3 : Guild := ⟨99, [], [⟨10, "dup", true⟩, ⟨11, "dup", true⟩], fun _ => false⟩

/-- A guild whose only member has id 1. -/
def gC7 : Guild := ⟨99, [⟨1, "a#1", []⟩], [], fun _ => false⟩

/-- A guild with 51 members (ids 1..51), no roles, everybody offline. -/
def gBig : Guild :=
  ⟨999, (List.range 51).map (fun i => ⟨i + 1, "u#" ++ toString (i + 1), []⟩), [], fun _ => false⟩

/-- Members 1 and 2; member 1 online and holding role 10, so `Everyone`
strictly contains both `Here` and role 10's member set. -/
def gC9 : Guild :=
  ⟨100, [⟨1, "a#1", [10]⟩, ⟨2, "b#2", []⟩], [⟨10, "r10", true⟩], fun n => n == 1⟩

/-- A scanner+parser stub returning one single-user chunk. -/
def spRun : String → Except String (List Expr) := fun _ => Except.ok [Expr.UserID 7]

/-! ### Helper lemmas -/

theorem getHere_subset (g : Guild) : getHere g ⊆ getEveryone g :=
  Finset.filter_subset _ _

theorem roleIdMembers_subset (g : Guild) (rid : Nat) : roleIdMembers g rid ⊆ getEveryone g := by
  intro x hx
  simp only [roleIdMembers, List.mem_toFinset, List.mem_map, List.mem_filter] at hx
  obtain ⟨m, ⟨hm, _⟩, rfl⟩ := hx
  simp only [getEveryone, List.mem_toFinset, List.mem_map]
  exact ⟨m, hm, rfl⟩

theorem userId_mem_everyone (g : Guild) (m : Member) (hm : m ∈ g.members) :
    m.userId ∈ getEveryone g := by
  simp only [getEveryone, List.mem_toFinset, List.mem_map]
  exact ⟨m, hm, rfl⟩

theorem evalEveryoneHere_sub (g : Guild) (inv : Invoker) (s : String) (S : Finset Nat)
    (h : evalEveryoneHere g inv s = Except.ok S) : S ⊆ getEveryone g := by
  unfold evalEveryoneHere at h
  split at h
  · exact absurd h (by simp)
  · split at h
    · injection h with h
      subst h
      exact Finset.Subset.refl _
    · injection h with h
      subst h
      exact getHere_subset g

theorem evalRoleId_sub (g : Guild) (inv : Invoker) (rid : Nat) (S : Finset Nat)
    (h : evalRoleId g inv rid = Except.ok S) : S ⊆ getEveryone g := by
  unfold evalRoleId at h
  split at h
  · exact evalEveryoneHere_sub _ _ _ _ h
  · split at h
    · exact absurd h (by simp)
    · injection h with h
      subst h
      exact roleIdMembers_subset _ _

theorem evalLit_sub (g : Guild) (inv : Invoker) (s : String) (S : Finset Nat)
    (h : evalLit g inv s = Except.ok S) : S ⊆ getEveryone g := by
  simp only [evalLit] at h
  split at h
  · exact evalEveryoneHere_sub _ _ _ _ h
  · split at h
    · exact absurd h (by simp)
    · split at h
      · exact absurd h (by simp)
      · rename_i m heq _
        injection h with h
        subst h
        have hmem : m ∈ g.members.filter (fun m => strLower m.tag == strLower s) :=
          List.mem_of_mem_head? (Option.mem_def.mpr heq)
        have := (List.mem_filter.mp hmem).1
        exact Finset.singleton_subset_iff.mpr (userId_mem_everyone g m this)
      · split at h
        · exact absurd h (by simp)
        · exact evalRoleId_sub _ _ _ _ h
      · exact absurd h (by simp)

theorem evalUnknownId_sub (g : Guild) (inv : Invoker) (s : String) (S : Finset Nat)
    (h : evalUnknownId g inv s = Except.ok S) : S ⊆ getEveryone g := by
  unfold evalUnknownId at h
  split at h
  · exact evalEveryoneHere_sub _ _ _ _ h
  · split at h
    · exact absurd h (by simp)
    · split at h
      · exact absurd h (by simp)
      · rename_i m heq _
        injection h with h
        subst h
        have hmem : m ∈ g.members := List.mem_of_find?_eq_some heq
        exact Finset.singleton_subset_iff.mpr (userId_mem_everyone g m hmem)
      · split at h
        · exact absurd h (by simp)
        · exact evalRoleId_sub _ _ _ _ h
      · exact absurd h (by simp)

theorem mem_rolesAndMembersL_snd (g : Guild) (p : RoleType × Finset Nat)
    (hp : p ∈ rolesAndMembersL g) : p.2 = keyFn g p.1 := by
  simp only [rolesAndMembersL, List.mem_cons, List.mem_map] at hp
  rcases hp with rfl | rfl | ⟨rid, _, rfl⟩ <;> rfl

/-! ### Claim theorems -/

/-- Claim C1 (code bug): the reconstruction invariant
`(⋃ Cover) ∪ Outliers = T` fails in `gC1` with target `{1}`: roles 10 and
20 qualify with equal member sets `{1}`, the non-strict `is_superset`
filter drops *both*, yet user 1 is counted as included, so the produced
cover-plus-outliers is `∅` while the target is `{1}`. -/
theorem c1_reconstruction_fails :
    TC1 ⊆ getEveryone gC1 ∧
    unionOfValues (newQualifiersL gC1 TC1) ∪ outliersL gC1 TC1 = (∅ : Finset Nat) ∧
    unionOfValues (newQualifiersL gC1 TC1) ∪ outliersL gC1 TC1 ≠ TC1 := by decide

/-- Claim C2 (code bug): in `gC1` with target `{1}`, role 10 qualifies,
*no* qualifier's member set is a strict superset of its set `{1}`, yet it
is dropped from the cover — and so is role 20, its equal-set twin, so
equal-set duplicates are both dropped rather than both kept. -/
theorem c2_equal_sets_both_dropped :
    (RoleType.Id 10, ({1} : Finset Nat)) ∈ qualifiersL gC1 TC1 ∧
    (RoleType.Id 20, ({1} : Finset Nat)) ∈ qualifiersL gC1 TC1 ∧
    (∀ q ∈ qualifiersL gC1 TC1, ¬ (({1} : Finset Nat) ⊆ q.2 ∧ ¬ q.2 ⊆ ({1} : Finset Nat))) ∧
    (RoleType.Id 10, ({1} : Finset Nat)) ∉ newQualifiersL gC1 TC1 ∧
    (RoleType.Id 20, ({1} : Finset Nat)) ∉ newQualifiersL gC1 TC1 := by decide

/-- Claim C3 (code bug): two distinct roles named `dup` match the literal
`dup` case-insensitively, yet evaluation *succeeds* (resolving to the
first matching role, here with no members) instead of failing with the
multiple-roles ambiguity error: the source re-checks
`possible_members.len() > 1` where it meant `possible_roles`. -/
theorem c3_multiple_roles_not_rejected :
    (gC3.roles.filter (fun r => strLower r.name == strLower "dup")).length > 1 ∧
    eval gC3 invAll (Expr.StringLiteral "dup") = Except.ok (∅ : Finset Nat) ∧
    eval gC3 invAll (Expr.StringLiteral "dup") ≠ Except.error (EvalError.multipleRoles "dup") := by decide

/-- Claim C4 (code bug): the `Display` impl renders `RoleType::Id(5)` as
the *user*-mention token `<@5>`, not the role-mention token `<@&5>` the
claim requires. -/
theorem c4_role_rendered_as_user_mention :
    renderRoleType (RoleType.Id 5) = "<@5>" ∧ renderRoleType (RoleType.Id 5) ≠ "<@&5>" := by decide

set_option maxRecDepth 100000 in
/-- Claim C5 counterexample: for a 51-user audience (card > 50) the `run`
path replies *immediately* with the mention content; its complete
interaction trace is that single mention reply, with no confirmation
prompt of any kind before it (the source has no confirmation gate). -/
theorem c5_mention_sent_without_confirmation :
    runReplies gBig invAll (Except.ok [Expr.StringLiteral "everyone"]) =
      Except.ok [Reply.mention "@everyone "] ∧
    50 < (getEveryone gBig).card := by decide

/-- Claim C5 as amended: whenever the chunks reduce to an AST and its
evaluation succeeds, the `run` branch sends the mention-content reply
unconditionally — one mention reply, for every audience size, with no
interactive confirmation step. -/
theorem c5_mention_reply_unconditional (g : Guild) (inv : Invoker) (chunks : List Expr)
    (ast : Expr) (T : Finset Nat) (h1 : reduceAstChunks chunks = some ast)
    (h2 : eval g inv ast = Except.ok T) :
    runReplies g inv (Except.ok chunks) = Except.ok [Reply.mention (mentionMessage g T)] := by
  simp only [runReplies, h1, h2]

set_option maxRecDepth 100000 in
/-- Witness for the amended C5 theorem at the 51-member guild. -/
theorem c5_mention_reply_unconditional_witness :
    reduceAstChunks [Expr.StringLiteral "everyone"] = some (Expr.StringLiteral "everyone") ∧
    eval gBig invAll (Expr.StringLiteral "everyone") = Except.ok (getEveryone gBig) ∧
    runReplies gBig invAll (Except.ok [Expr.StringLiteral "everyone"]) =
      Except.ok [Reply.mention (mentionMessage gBig (getEveryone gBig))] :=
  ⟨by decide, by decide,
    c5_mention_reply_unconditional gBig invAll [Expr.StringLiteral "everyone"]
      (Expr.StringLiteral "everyone") (getEveryone gBig) (by decide) (by decide)⟩

/-- Claim C6 counterexample: a `run` invocation whose text scans to zero
DRQL chunks is *not* a silent no-op — the core sends one informational
reply. -/
theorem c6_zero_chunks_still_replies :
    runReplies gEmpty invAll (Except.ok []) =
      Except.ok [Reply.info "Your message does not contain any DRQL queries to attempt to resolve"] ∧
    ([Reply.info "Your message does not contain any DRQL queries to attempt to resolve"] : List Reply) ≠ [] := by
  decide

/-- Claim C6 as amended: for every guild and invoker, zero scanned chunks
make the `run` branch send exactly one informational reply (the fixed "no
DRQL queries" text) and no mention output. -/
theorem c6_zero_chunks_one_info_reply (g : Guild) (inv : Invoker) :
    runReplies g inv (Except.ok []) =
      Except.ok [Reply.info "Your message does not contain any DRQL queries to attempt to resolve"] :=
  rfl

/-- Claim C7 counterexample: with full permissions, evaluating
`UserID(2)` in a guild whose only member is 1 yields `{2}`, which is not
a subset of `everyone_members` — the `UserId(u) → {u}` rule performs no
existence check. -/
theorem c7_eval_escapes_everyone :
    eval gC7 invAll (Expr.UserID 2) = Except.ok {2} ∧
    ¬ (({2} : Finset Nat) ⊆ getEveryone gC7) := by decide

/-- Claim C7 as amended: every successful evaluation is a subset of
`everyone_members` united with the ids of the AST's `UserID` leaves (the
only leaves that can inject non-members). -/
theorem c7_eval_subset_everyone_and_leaves (g : Guild) (inv : Invoker) :
    ∀ (e : Expr) (S : Finset Nat), eval g inv e = Except.ok S →
      S ⊆ getEveryone g ∪ userIdLeaves e := by
  intro e
  induction e with
  | Union a b iha ihb =>
    intro S h
    unfold eval at h
    rcases heqa : eval g inv a with e | sa
    · simp only [heqa] at h
      exact Except.noConfusion h
    · simp only [heqa] at h
      rcases heqb : eval g inv b with e | sb
      · simp only [heqb] at h
        exact Except.noConfusion h
      · simp only [heqb, Except.ok.injEq] at h
        subst h
        simp only [userIdLeaves]
        intro x hx
        rcases Finset.mem_union.mp hx with hx | hx
        · rcases Finset.mem_union.mp (iha _ heqa hx) with hh | hh
          · exact Finset.mem_union_left _ hh
          · exact Finset.mem_union_right _ (Finset.mem_union_left _ hh)
        · rcases Finset.mem_union.mp (ihb _ heqb hx) with hh | hh
          · exact Finset.mem_union_left _ hh
          · exact Finset.mem_union_right _ (Finset.mem_union_right _ hh)
  | Intersection a b iha ihb =>
    intro S h
    unfold eval at h
    rcases heqa : eval g inv a with e | sa
    · simp only [heqa] at h
      exact Except.noConfusion h
    · simp only [heqa] at h
      rcases heqb : eval g inv b with e | sb
      · simp only [heqb] at h
        exact Except.noConfusion h
      · simp only [heqb, Except.ok.injEq] at h
        subst h
        simp only [userIdLeaves]
        intro x hx
        rcases Finset.mem_union.mp (iha _ heqa (Finset.mem_inter.mp hx).1) with hh | hh
        · exact Finset.mem_union_left _ hh
        · exact Finset.mem_union_right _ (Finset.mem_union_left _ hh)
  | Difference a b iha ihb =>
    intro S h
    unfold eval at h
    rcases heqa : eval g inv a with e | sa
    · simp only [heqa] at h
      exact Except.noConfusion h
    · simp only [heqa] at h
      rcases heqb : eval g inv b with e | sb
      · simp only [heqb] at h
        exact Except.noConfusion h
      · simp only [heqb, Except.ok.injEq] at h
        subst h
        simp only [userIdLeaves]
        intro x hx
        rcases Finset.mem_union.mp (iha _ heqa (Finset.mem_sdiff.mp hx).1) with hh | hh
        · exact Finset.mem_union_left _ hh
        · exact Finset.mem_union_right _ (Finset.mem_union_left _ hh)
  | UserID id =>
    intro S h
    unfold eval at h
    injection h with h
    subst h
    simp only [userIdLeaves]
    exact Finset.subset_union_right
  | RoleID id =>
    intro S h
    unfold eval at h
    exact (evalRoleId_sub _ _ _ _ h).trans Finset.subset_union_left
  | UnknownID s =>
    intro S h
    unfold eval at h
    exact (evalUnknownId_sub _ _ _ _ h).trans Finset.subset_union_left
  | StringLiteral s =>
    intro S h
    unfold eval at h
    exact (evalLit_sub _ _ _ _ h).trans Finset.subset_union_left

/-- Witness for the amended C7 theorem at `UserID(2)` in `gC7`. -/
theorem c7_eval_subset_everyone_and_leaves_witness :
    eval gC7 invAll (Expr.UserID 2) = Except.ok {2} ∧
    ({2} : Finset Nat) ⊆ getEveryone gC7 ∪ userIdLeaves (Expr.UserID 2) :=
  ⟨by decide, c7_eval_subset_everyone_and_leaves gC7 invAll (Expr.UserID 2) {2} (by decide)⟩

/-- Claim C8 (confirmed): when both subevaluations succeed, `Union`,
`Intersection` and `Difference` evaluate to the union, the intersection
and the left-minus-right difference of the operand results. -/
theorem c8_set_operator_semantics (g : Guild) (inv : Invoker) (a b : Expr)
    (sa sb : Finset Nat) (ha : eval g inv a = Except.ok sa)
    (hb : eval g inv b = Except.ok sb) :
    eval g inv (Expr.Union a b) = Except.ok (sa ∪ sb) ∧
    eval g inv (Expr.Intersection a b) = Except.ok (sa ∩ sb) ∧
    eval g inv (Expr.Difference a b) = Except.ok (sa \ sb) := by
  refine ⟨?_, ?_, ?_⟩ <;> (unfold eval; rw [ha, hb])

/-- Witness for C8 at two `UserID` leaves in the empty guild. -/
theorem c8_set_operator_semantics_witness :
    eval gEmpty invAll (Expr.UserID 1) = Except.ok {1} ∧
    eval gEmpty invAll (Expr.UserID 2) = Except.ok {2} ∧
    (eval gEmpty invAll (Expr.Union (Expr.UserID 1) (Expr.UserID 2)) =
        Except.ok (({1} : Finset Nat) ∪ {2}) ∧
      eval gEmpty invAll (Expr.Intersection (Expr.UserID 1) (Expr.UserID 2)) =
        Except.ok (({1} : Finset Nat) ∩ {2}) ∧
      eval gEmpty invAll (Expr.Difference (Expr.UserID 1) (Expr.UserID 2)) =
        Except.ok (({1} : Finset Nat) \ {2})) :=
  ⟨by decide, by decide,
    c8_set_operator_semantics gEmpty invAll _ _ _ _ (by decide) (by decide)⟩

/-- Claim C9 (confirmed): the cover produced by the redundancy-removal
step is an antichain — no element's member set is a strict subset of
another cover element's member set (a kept element would otherwise have
been filtered by its strict superset, which also qualifies). -/
theorem c9_cover_is_antichain (g : Guild) (T : Finset Nat) (p q : RoleType × Finset Nat)
    (hp : p ∈ newQualifiersL g T) (hq : q ∈ newQualifiersL g T) : ¬ p.2 ⊂ q.2 := by
  intro hss
  have hp' := List.mem_filter.mp hp
  have hq1 : q ∈ qualifiersL g T := List.mem_of_mem_filter hq
  have hall := hp'.2
  rw [Bool.not_eq_true'] at hall
  have hfq := (List.any_eq_false.mp hall) q hq1
  by_cases hkey : q.1 = p.1
  · have hpv := mem_rolesAndMembersL_snd g p (List.mem_of_mem_filter hp'.1)
    have hqv := mem_rolesAndMembersL_snd g q (List.mem_of_mem_filter hq1)
    have heq2 : p.2 = q.2 := by rw [hpv, hqv, hkey]
    rw [heq2] at hss
    exact (Finset.ssubset_def.mp hss).2 (Finset.Subset.refl _)
  · have hsub : p.2 ⊆ q.2 := (Finset.ssubset_def.mp hss).1
    simp [hkey, hsub] at hfq

/-- Witness for C9: in `gC9` with target `{1,2}`, the cover is exactly
`[(Everyone, {1,2})]`. -/
theorem c9_cover_is_antichain_witness :
    (RoleType.Everyone, ({1, 2} : Finset Nat)) ∈ newQualifiersL gC9 {1, 2} ∧
    ¬ ((RoleType.Everyone, ({1, 2} : Finset Nat)).2 ⊂ (RoleType.Everyone, ({1, 2} : Finset Nat)).2) :=
  ⟨by decide, c9_cover_is_antichain gC9 {1, 2} _ _ (by decide) (by decide)⟩

theorem handleCommand_mention_cmd (pfx : String) (g : Guild) (inv : Invoker) (cmd : String)
    (args : List String) (scanned : Except String (List Expr)) (rs : List Reply) (r : Reply)
    (hok : handleCommand pfx g inv cmd args scanned = Except.ok rs) (hr : r ∈ rs)
    (hm : ∃ s, r = Reply.mention s) : cmd = "run" := by
  unfold handleCommand at hok
  split at hok
  · injection hok with hok
    subst hok
    obtain ⟨s, rfl⟩ := hm
    simp at hr
  · split at hok
    · rename_i hrun
      exact hrun
    · injection hok with hok
      subst hok
      obtain ⟨s, rfl⟩ := hm
      simp at hr

/-- Claim C10 (confirmed): a mention-content reply can only come from a
message whose author is not a bot, whose content starts with the guild's
configured prefix, and whose first word after the prefix is `run`; every
other message produces no mention output. -/
theorem c10_mention_only_from_run (bot ig : Bool) (pfx content : String) (g : Guild)
    (inv : Invoker) (sp : String → Except String (List Expr)) (r : Reply)
    (hr : r ∈ handleMessage bot ig pfx content g inv sp)
    (hm : ∃ s, r = Reply.mention s) :
    bot = false ∧ strStartsWith content pfx = true ∧
      (splitWhitespace (content.drop pfx.length)).head? = some "run" := by
  unfold handleMessage at hr
  split at hr
  · simp at hr
  · rename_i hbot
    split at hr
    · obtain ⟨s, rfl⟩ := hm
      simp at hr
    · rename_i hig
      split at hr
      · simp at hr
      · rename_i hpre
        split at hr
        · simp at hr
        · rename_i cmd args hsplit
          refine ⟨by simpa using hbot, by simpa using hpre, ?_⟩
          rw [hsplit]
          split at hr
          · rename_i rs hok
            have := handleCommand_mention_cmd pfx g inv cmd args _ rs r hok hr hm
            rw [this]
            rfl
          · obtain ⟨s, rfl⟩ := hm
            simp at hr

/-- Witness for C10: the pipeline at a concrete non-bot `!run` message
that produces a mention reply. -/
theorem c10_mention_only_from_run_witness :
    (Reply.mention " <@7>") ∈ handleMessage false true "!" "!run q" gEmpty invAll spRun ∧
    (false = false ∧ strStartsWith "!run q" "!" = true ∧
      (splitWhitespace ("!run q".drop "!".length)).head? = some "run") :=
  ⟨by decide,
    c10_mention_only_from_run false true "!" "!run q" gEmpty invAll spRun
      (Reply.mention " <@7>") (by decide) ⟨" <@7>", rfl⟩⟩

end DRQL
